import Mathlib

/-!
Verification of the serial (USART) driver and monotonic-timer core of an
STM32L4 HAL crate.  The Lean definitions below are a shallow embedding of
`src/serial.rs` and `src/time.rs`: register words are `Nat` with explicit
`% 2 ^ w` where hardware truncation occurs, volatile register accesses are
made explicit as counts or as an action trace, and the busy-wait loops of
`delay` are modelled as fuel-bounded recursion over a stream of counter
readings.
-/

/-- Interrupt event (`Event` in `serial.rs`). -/
inductive Event
  | Rxne
  | Txe

/-- Serial error (`Error` in `serial.rs`; the hidden `_Extensible` variant is
carried over so the type matches the source). -/
inductive Error
  | Framing
  | Noise
  | Overrun
  | Parity
  | Extensible
deriving DecidableEq

/-- The `nb` crate's error wrapper: either a retry signal or a real error. -/
inductive NbError (E : Type)
  | WouldBlock
  | Other (e : E)

/-- Snapshot of the USART interrupt-and-status register: the flag bits read by
`Rx::read`, `Tx::write` and `Tx::flush`. -/
structure Isr where
  pe : Bool
  fe : Bool
  nf : Bool
  ore : Bool
  rxne : Bool
  txe : Bool
  tc : Bool

/-- Outcome of `Rx::read`: the returned `nb::Result` together with the number
of volatile reads of the data register performed by the call. -/
structure RxReadResult where
  result : Except (NbError Error) Nat
  rdrReads : Nat

/-- Shallow embedding of `Rx::read` (`serial.rs`): sample the status register
once, then resolve in the source's `if`/`else if` order; only the `rxne`
branch touches the data register, with a single 8-bit volatile read. -/
def Rx.read (isr : Isr) (rdr : Nat) : RxReadResult :=
  if isr.pe then ⟨.error (.Other .Parity), 0⟩
  else if isr.fe then ⟨.error (.Other .Framing), 0⟩
  else if isr.nf then ⟨.error (.Other .Noise), 0⟩
  else if isr.ore then ⟨.error (.Other .Overrun), 0⟩
  else if isr.rxne then ⟨.ok (rdr % 256), 1⟩
  else ⟨.error .WouldBlock, 0⟩

/-- Outcome of `Tx::write`: the returned `nb::Result` (error type `Void`,
modelled as `Empty`), the data-register contents after the call, and the
number of volatile writes performed. -/
structure TxWriteResult where
  result : Except (NbError Empty) Unit
  tdr : Nat
  tdrWrites : Nat

/-- Shallow embedding of `Tx::write` (`serial.rs`): if the transmit-empty flag
is set, one volatile write of `byte` to the data register and success;
otherwise `WouldBlock` with no register mutation. -/
def Tx.write (isr : Isr) (tdr byte : Nat) : TxWriteResult :=
  if isr.txe then ⟨.ok (), byte, 1⟩
  else ⟨.error .WouldBlock, tdr, 0⟩

/-- Shallow embedding of `Tx::flush` (`serial.rs`): success iff the
transmission-complete flag is set. -/
def Tx.flush (isr : Isr) : Except (NbError Empty) Unit :=
  if isr.tc then .ok ()
  else .error .WouldBlock

/-- Claim C1: `Rx::read` resolves its outcome in the fixed priority order
parity, framing, noise, overrun, data-ready, `WouldBlock`; the parity flag
wins regardless of all other flags, and only the data-ready branch performs a
(single) volatile read of the data register, returning exactly that byte. -/
theorem rx_read_priority_order (isr : Isr) (rdr : Nat) :
    (isr.pe = true → Rx.read isr rdr = ⟨.error (.Other .Parity), 0⟩)
    ∧ (isr.pe = false → isr.fe = true → Rx.read isr rdr = ⟨.error (.Other .Framing), 0⟩)
    ∧ (isr.pe = false → isr.fe = false → isr.nf = true →
        Rx.read isr rdr = ⟨.error (.Other .Noise), 0⟩)
    ∧ (isr.pe = false → isr.fe = false → isr.nf = false → isr.ore = true →
        Rx.read isr rdr = ⟨.error (.Other .Overrun), 0⟩)
    ∧ (isr.pe = false → isr.fe = false → isr.nf = false → isr.ore = false → isr.rxne = true →
        Rx.read isr rdr = ⟨.ok (rdr % 256), 1⟩)
    ∧ (isr.pe = false → isr.fe = false → isr.nf = false → isr.ore = false → isr.rxne = false →
        Rx.read isr rdr = ⟨.error .WouldBlock, 0⟩) := by
  obtain ⟨pe, fe, nf, ore, rxne, txe, tc⟩ := isr
  cases pe <;> cases fe <;> cases nf <;> cases ore <;> cases rxne <;>
    simp [Rx.read]

/-- Concrete instance of `rx_read_priority_order`: with every status flag set
simultaneously, `read` reports `Parity`. -/
theorem rx_read_priority_order_witness :
    Rx.read ⟨true, true, true, true, true, true, true⟩ 300 = ⟨.error (.Other .Parity), 0⟩ :=
  (rx_read_priority_order ⟨true, true, true, true, true, true, true⟩ 300).1 rfl

/-- Claim C3: `Tx::write` with transmit-empty set performs exactly one
volatile write of the byte to the data register and succeeds; with
transmit-empty clear it returns `WouldBlock`, performs no write, and leaves
the data register unmodified. -/
theorem tx_write_frame_effect (isr : Isr) (tdr byte : Nat) :
    (isr.txe = true → Tx.write isr tdr byte = ⟨.ok (), byte, 1⟩)
    ∧ (isr.txe = false → Tx.write isr tdr byte = ⟨.error .WouldBlock, tdr, 0⟩) := by
  obtain ⟨pe, fe, nf, ore, rxne, txe, tc⟩ := isr
  cases txe <;> simp [Tx.write]

/-- Concrete instances of `tx_write_frame_effect` for both values of the
transmit-empty flag. -/
theorem tx_write_frame_effect_witness :
    Tx.write ⟨false, false, false, false, false, true, false⟩ 17 42 = ⟨.ok (), 42, 1⟩
    ∧ Tx.write ⟨false, false, false, false, false, false, false⟩ 17 42 =
        ⟨.error .WouldBlock, 17, 0⟩ :=
  ⟨(tx_write_frame_effect ⟨false, false, false, false, false, true, false⟩ 17 42).1 rfl,
   (tx_write_frame_effect ⟨false, false, false, false, false, false, false⟩ 17 42).2 rfl⟩

/-- Claim C8: the transmit direction's error type (`Void`, modelled `Empty`)
makes every value of `nb::Error<Void>` equal to `WouldBlock`, so `write` and
`flush` can only succeed or report `WouldBlock` — no other failure value is
constructible or observable. -/
theorem tx_error_only_wouldblock :
    (∀ e : NbError Empty, e = NbError.WouldBlock)
    ∧ (∀ (isr : Isr) (tdr byte : Nat),
        (Tx.write isr tdr byte).result = .ok ()
        ∨ (Tx.write isr tdr byte).result = .error .WouldBlock)
    ∧ (∀ isr : Isr,
        Tx.flush isr = .ok () ∨ Tx.flush isr = .error .WouldBlock) := by
  refine ⟨?_, ?_, ?_⟩
  · intro e
    cases e with
    | WouldBlock => rfl
    | Other v => exact v.elim
  · intro isr tdr byte
    by_cases h : isr.txe = true
    · left; simp [Tx.write, h]
    · right; simp [Tx.write, h]
  · intro isr
    by_cases h : isr.tc = true
    · left; simp [Tx.flush, h]
    · right; simp [Tx.flush, h]

/-- USART registers touched by the constructor: the baud-rate register and
the 32-bit control register CR1, kept as a bit word (UE = bit 0, RE = bit 2,
TE = bit 3, RXNEIE = bit 5, TXEIE = bit 7 on this part). -/
structure UsartRegs where
  brr : Nat
  cr1 : Nat

/-- Serial abstraction owning the raw peripheral and the pins
(`Serial<USART, PINS>` in `serial.rs`). -/
structure Serial (USART PINS : Type) where
  usart : USART
  pins : PINS

/-- Shallow embedding of the `Serial::usart1` / `Serial::usart2` constructor
generated by the `hal!` macro in `serial.rs`: compute `brr = pclk / baud`,
`assert!(brr >= 16)` (a fatal halt, modelled as `none`), write `brr` to the
baud-rate register, and write CR1 with the UE, RE and TE bits set. -/
def Serial.usartX {USART PINS : Type} (usart : USART) (pins : PINS)
    (pclk baud : Nat) : Option (Serial USART PINS × UsartRegs) :=
  let brr := pclk / baud
  if 16 ≤ brr then
    some ({ usart := usart, pins := pins }, { brr := brr, cr1 := 2 ^ 0 ||| 2 ^ 2 ||| 2 ^ 3 })
  else
    none

/-- Shallow embedding of `Serial::free` (`serial.rs`): release the raw
peripheral and the pins. -/
def Serial.free {USART PINS : Type} (s : Serial USART PINS) : USART × PINS :=
  (s.usart, s.pins)

/-- Bit index of the RXNEIE interrupt-enable flag in CR1. -/
def rxneieBit : Nat := 5

/-- Bit index of the TXEIE interrupt-enable flag in CR1. -/
def txeieBit : Nat := 7

/-- CR1 bit toggled by `listen`/`unlisten` for each event. -/
def eventBit : Event → Nat
  | .Rxne => rxneieBit
  | .Txe => txeieBit

/-- Shallow embedding of `Serial::listen` (`serial.rs`): a read-modify-write
of CR1 that sets the event's interrupt-enable bit. -/
def Serial.listen (cr1 : Nat) (e : Event) : Nat :=
  cr1 ||| 2 ^ eventBit e

/-- Shallow embedding of `Serial::unlisten` (`serial.rs`): a read-modify-write
of CR1 that clears the event's interrupt-enable bit (the svd2rust
`clear_bit` masks with the 32-bit complement of the bit). -/
def Serial.unlisten (cr1 : Nat) (e : Event) : Nat :=
  cr1 &&& ((2 ^ 32 - 1) ^^^ 2 ^ eventBit e)

/-- Claim C4: construction computes `divisor = pclk / baud` by integer
division, halts fatally (returns `none`) exactly when the divisor is below
16, and on success writes the divisor to the baud-rate register and sets the
UE, RE and TE bits of CR1. -/
theorem usartX_divisor_check {USART PINS : Type} (u : USART) (p : PINS)
    (pclk baud : Nat) :
    ((Serial.usartX u p pclk baud).isSome ↔ 16 ≤ pclk / baud)
    ∧ (∀ (s : Serial USART PINS) (regs : UsartRegs),
        Serial.usartX u p pclk baud = some (s, regs) →
        regs.brr = pclk / baud ∧ regs.cr1.testBit 0 = true
          ∧ regs.cr1.testBit 2 = true ∧ regs.cr1.testBit 3 = true) := by
  constructor
  · by_cases hle : 16 ≤ pclk / baud <;> simp [Serial.usartX, hle]
  · intro s regs h
    by_cases hle : 16 ≤ pclk / baud
    · simp only [Serial.usartX, hle, if_true] at h
      obtain ⟨-, h2⟩ := Prod.mk.injEq .. ▸ Option.some.injEq .. ▸ h
      subst h2
      refine ⟨rfl, ?_, ?_, ?_⟩
      · exact (by decide : Nat.testBit (2 ^ 0 ||| 2 ^ 2 ||| 2 ^ 3) 0 = true)
      · exact (by decide : Nat.testBit (2 ^ 0 ||| 2 ^ 2 ||| 2 ^ 3) 2 = true)
      · exact (by decide : Nat.testBit (2 ^ 0 ||| 2 ^ 2 ||| 2 ^ 3) 3 = true)
    · simp [Serial.usartX, hle] at h

/-- Concrete instance of `usartX_divisor_check`: a 160 Hz bus clock at
10 bps gives divisor 16, so construction succeeds with BRR = 16 and the
UE/RE/TE bits set. -/
theorem usartX_divisor_check_witness :
    (16 : Nat) = 160 / 10 ∧ Nat.testBit (2 ^ 0 ||| 2 ^ 2 ||| 2 ^ 3) 0 = true
      ∧ Nat.testBit (2 ^ 0 ||| 2 ^ 2 ||| 2 ^ 3) 2 = true
      ∧ Nat.testBit (2 ^ 0 ||| 2 ^ 2 ||| 2 ^ 3) 3 = true :=
  (usartX_divisor_check (1 : Nat) (2 : Nat) 160 10).2 ⟨1, 2⟩
    ⟨16, 2 ^ 0 ||| 2 ^ 2 ||| 2 ^ 3⟩ rfl

/-- Claim C9: `free` is the exact inverse of construction — whenever the
constructor succeeds on a peripheral and pins, `free` on the resulting
transceiver returns exactly those. -/
theorem serial_free_inverse {USART PINS : Type} (u : USART) (p : PINS)
    (pclk baud : Nat) (s : Serial USART PINS) (regs : UsartRegs)
    (h : Serial.usartX u p pclk baud = some (s, regs)) :
    s.free = (u, p) := by
  by_cases hle : 16 ≤ pclk / baud
  · simp only [Serial.usartX, hle, if_true] at h
    obtain ⟨h1, -⟩ := Prod.mk.injEq .. ▸ Option.some.injEq .. ▸ h
    subst h1
    rfl
  · simp [Serial.usartX, hle] at h

/-- Concrete instance of `serial_free_inverse` at peripheral `1`, pins `2`,
bus clock 160 and baud 10. -/
theorem serial_free_inverse_witness :
    Serial.free (Serial.mk (1 : Nat) (2 : Nat)) = (1, 2) :=
  serial_free_inverse 1 2 160 10 (Serial.mk 1 2)
    ⟨16, 2 ^ 0 ||| 2 ^ 2 ||| 2 ^ 3⟩ rfl

/-- Claim C10: `listen` sets only the event's interrupt-enable bit and
`unlisten` clears only it; every other CR1 bit — including UE (bit 0),
RE (bit 2) and TE (bit 3) — is left unchanged by both operations. -/
theorem listen_unlisten_frame (cr1 : Nat) (e : Event) (h : cr1 < 2 ^ 32) :
    (Serial.listen cr1 e).testBit (eventBit e) = true
    ∧ (Serial.unlisten cr1 e).testBit (eventBit e) = false
    ∧ ∀ j, j ≠ eventBit e →
        (Serial.listen cr1 e).testBit j = cr1.testBit j
        ∧ (Serial.unlisten cr1 e).testBit j = cr1.testBit j := by
  have hbit : eventBit e < 32 := by
    cases e <;> decide
  refine ⟨?_, ?_, ?_⟩
  · simp [Serial.listen, Nat.testBit_or, Nat.testBit_two_pow_self]
  · have hm : Nat.testBit ((2 ^ 32 - 1) ^^^ 2 ^ eventBit e) (eventBit e) = false := by
      rw [Nat.testBit_xor, Nat.testBit_two_pow_sub_one, Nat.testBit_two_pow_self]
      simp [hbit]
    show (cr1 &&& ((2 ^ 32 - 1) ^^^ 2 ^ eventBit e)).testBit (eventBit e) = false
    rw [Nat.testBit_and, hm, Bool.and_false]
  · intro j hj
    have hne : eventBit e ≠ j := Ne.symm hj
    constructor
    · simp [Serial.listen, Nat.testBit_or, Nat.testBit_two_pow_of_ne hne]
    · by_cases hj32 : j < 32
      · have hm : Nat.testBit ((2 ^ 32 - 1) ^^^ 2 ^ eventBit e) j = true := by
          rw [Nat.testBit_xor, Nat.testBit_two_pow_sub_one,
            Nat.testBit_two_pow_of_ne hne]
          simp [hj32]
        show (cr1 &&& ((2 ^ 32 - 1) ^^^ 2 ^ eventBit e)).testBit j = cr1.testBit j
        rw [Nat.testBit_and, hm, Bool.and_true]
      · have hle : 2 ^ 32 ≤ 2 ^ j :=
          Nat.pow_le_pow_right (by norm_num) (le_of_not_lt hj32)
        have h1 : cr1.testBit j = false :=
          Nat.testBit_lt_two_pow (lt_of_lt_of_le h hle)
        have h2 : (Serial.unlisten cr1 e).testBit j = false :=
          Nat.testBit_lt_two_pow
            (lt_of_le_of_lt (Nat.and_le_left ..) (lt_of_lt_of_le h hle))
        rw [h2, h1]

/-- Concrete instance of `listen_unlisten_frame` at CR1 = 13 (UE, RE, TE set)
and the data-received event. -/
theorem listen_unlisten_frame_witness :
    (Serial.listen 13 Event.Rxne).testBit (eventBit Event.Rxne) = true
    ∧ (Serial.unlisten 13 Event.Rxne).testBit (eventBit Event.Rxne) = false
    ∧ ∀ j, j ≠ eventBit Event.Rxne →
        (Serial.listen 13 Event.Rxne).testBit j = Nat.testBit 13 j
        ∧ (Serial.unlisten 13 Event.Rxne).testBit j = Nat.testBit 13 j :=
  listen_unlisten_frame 13 Event.Rxne (by decide)

/-- DMA channel control-register (CCR) fields; `circ_read`'s read-modify-write
sets all of them except the three interrupt-enable bits, which it carries
over from the previous value. -/
structure DmaCcr where
  mem2mem : Bool
  pl : Nat
  msize : Nat
  psize : Nat
  minc : Bool
  pinc : Bool
  circ : Bool
  dir : Bool
  teie : Bool
  htie : Bool
  tcie : Bool
  en : Bool
deriving DecidableEq

/-- DMA channel registers programmed by `circ_read`. -/
structure DmaChannel where
  cmar : Nat
  cndtr : Nat
  cpar : Nat
  ccr : DmaCcr
deriving DecidableEq

/-- Register accesses performed by `circ_read`, in program order. -/
inductive DmaAction
  | writeCMAR (a : Nat)
  | writeCNDTR (n : Nat)
  | writeCPAR (a : Nat)
  | fence
  | writeCCR (c : DmaCcr)
deriving DecidableEq

/-- Shallow embedding of `Rx::circ_read` (`serial.rs`): program the memory
address with the first segment's address (`as u32`), the transfer count with
`buffer.len() * 2` truncated `as u16`, the peripheral address with the data
register's address, issue a `SeqCst` compiler fence, and only then perform
the single CCR read-modify-write (mem2mem off, priority `0b10` = high, 8-bit
sizes, memory increment on, peripheral increment off, circular on, direction
peripheral-to-memory, enable on). -/
def Rx.circ_read (chan : DmaChannel) (bufAddr segLen rdrAddr : Nat) :
    DmaChannel × List DmaAction :=
  let cmar := bufAddr % 2 ^ 32
  let cndtr := segLen * 2 % 2 ^ 16
  let cpar := rdrAddr % 2 ^ 32
  let ccr : DmaCcr :=
    { mem2mem := false, pl := 2, msize := 0, psize := 0,
      minc := true, pinc := false, circ := true, dir := false,
      teie := chan.ccr.teie, htie := chan.ccr.htie, tcie := chan.ccr.tcie,
      en := true }
  ({ cmar := cmar, cndtr := cndtr, cpar := cpar, ccr := ccr },
   [.writeCMAR cmar, .writeCNDTR cndtr, .writeCPAR cpar, .fence, .writeCCR ccr])

/-- A DMA channel in its reset state, used as a concrete starting point. -/
def chanZero : DmaChannel :=
  ⟨0, 0, 0, ⟨false, 0, 0, 0, false, false, false, false, false, false, false, false⟩⟩

/-- Counterexample to claim C5 as stated: for segment length 32768 the
programmed transfer count is `2 * 32768` truncated `as u16`, i.e. `0`, not
`2 * 32768`. -/
theorem circ_read_count_counterexample :
    (Rx.circ_read chanZero 536870912 32768 1073755176).1.cndtr ≠ 2 * 32768 := by
  decide

/-- Claim C5 (amended): `circ_read` programs memory address = the first
segment's address, peripheral address = the data register's address, transfer
count = `2 × N` reduced modulo `2 ^ 16` (hence equal to `2 × N` whenever it
fits the 16-bit count register), direction peripheral-to-memory, circular
mode on, memory increment on, peripheral increment off, high priority
(`pl = 2`), and its access trace places the compiler fence after the
buffer-address programming and before the one CCR write that sets enable. -/
theorem circ_read_config (chan : DmaChannel) (bufAddr segLen rdrAddr : Nat)
    (hcnt : segLen * 2 < 2 ^ 16) (haddr : bufAddr < 2 ^ 32) :
    (Rx.circ_read chan bufAddr segLen rdrAddr).1.cndtr = 2 * segLen
    ∧ (Rx.circ_read chan bufAddr segLen rdrAddr).1.cmar = bufAddr
    ∧ (Rx.circ_read chan bufAddr segLen rdrAddr).1.cpar = rdrAddr % 2 ^ 32
    ∧ (Rx.circ_read chan bufAddr segLen rdrAddr).1.ccr.dir = false
    ∧ (Rx.circ_read chan bufAddr segLen rdrAddr).1.ccr.circ = true
    ∧ (Rx.circ_read chan bufAddr segLen rdrAddr).1.ccr.minc = true
    ∧ (Rx.circ_read chan bufAddr segLen rdrAddr).1.ccr.pinc = false
    ∧ (Rx.circ_read chan bufAddr segLen rdrAddr).1.ccr.pl = 2
    ∧ (Rx.circ_read chan bufAddr segLen rdrAddr).1.ccr.en = true
    ∧ (Rx.circ_read chan bufAddr segLen rdrAddr).2 =
        [.writeCMAR bufAddr, .writeCNDTR (2 * segLen),
         .writeCPAR (rdrAddr % 2 ^ 32), .fence,
         .writeCCR (Rx.circ_read chan bufAddr segLen rdrAddr).1.ccr] := by
  refine ⟨?_, ?_, rfl, rfl, rfl, rfl, rfl, rfl, rfl, ?_⟩ <;>
    simp [Rx.circ_read] <;> omega

/-- Concrete instance of `circ_read_config`: segment length 8 on the reset
channel programs count 16, the buffer address, and the stated configuration,
with the fence strictly between address programming and channel enable. -/
theorem circ_read_config_witness :
    (Rx.circ_read chanZero 536870912 8 1073755176).1.cndtr = 2 * 8
    ∧ (Rx.circ_read chanZero 536870912 8 1073755176).1.cmar = 536870912
    ∧ (Rx.circ_read chanZero 536870912 8 1073755176).1.cpar = 1073755176 % 2 ^ 32
    ∧ (Rx.circ_read chanZero 536870912 8 1073755176).1.ccr.dir = false
    ∧ (Rx.circ_read chanZero 536870912 8 1073755176).1.ccr.circ = true
    ∧ (Rx.circ_read chanZero 536870912 8 1073755176).1.ccr.minc = true
    ∧ (Rx.circ_read chanZero 536870912 8 1073755176).1.ccr.pinc = false
    ∧ (Rx.circ_read chanZero 536870912 8 1073755176).1.ccr.pl = 2
    ∧ (Rx.circ_read chanZero 536870912 8 1073755176).1.ccr.en = true
    ∧ (Rx.circ_read chanZero 536870912 8 1073755176).2 =
        [.writeCMAR 536870912, .writeCNDTR (2 * 8),
         .writeCPAR (1073755176 % 2 ^ 32), .fence,
         .writeCCR (Rx.circ_read chanZero 536870912 8 1073755176).1.ccr] :=
  circ_read_config chanZero 536870912 8 1073755176 (by decide) (by decide)

/-- Maximum value of the 32-bit cycle counter, `u32::max_value()` in
`time.rs`. -/
def U32MAX : Nat := 4294967295

/-- Wrapping 32-bit subtraction: the release-mode meaning of the `u32`
subtraction `self.get_current() - self.lastCount` in `delay`. -/
def wsub (a b : Nat) : Nat := (a + (2 ^ 32 - b % 2 ^ 32)) % 2 ^ 32

/-- Monotonic timer state (`MonoTimer` in `time.rs`): the system frequency
and the last recorded cycle count. -/
structure MonoTimer where
  frequency : Nat
  lastCount : Nat

/-- Shallow embedding of `MonoTimer::has_wrapped` (`time.rs`): read the
current cycle count and test whether it is below the recorded one. -/
def MonoTimer.has_wrapped (t : MonoTimer) (current : Nat) : Bool :=
  decide (current < t.lastCount)

/-- Claim C6: `has_wrapped` returns true iff the current count is numerically
less than the recorded `lastCount`; with `lastCount = 0xFFFFFFF0` it returns
true at current 5 and false at current `0xFFFFFFF5`. -/
theorem has_wrapped_iff_lt :
    (∀ (f lastCount current : Nat),
      (MonoTimer.mk f lastCount).has_wrapped current = true ↔ current < lastCount)
    ∧ (MonoTimer.mk 0 0xFFFFFFF0).has_wrapped 5 = true
    ∧ (MonoTimer.mk 0 0xFFFFFFF0).has_wrapped 0xFFFFFFF5 = false := by
  refine ⟨?_, by decide, by decide⟩
  intro f l c
  simp [MonoTimer.has_wrapped]

/-- The busy-wait `while !self.has_wrapped() {}` of `delay`'s wrap branch:
each iteration reads the counter once from the stream `ctr`; the result is
the next reading index once the loop exits, `none` when the fuel bound is
reached first. -/
def wrapWait (ctr : Nat → Nat) (lastCount : Nat) : Nat → Nat → Option Nat
  | 0, _ => none
  | fuel + 1, pos =>
    if ctr pos < lastCount then some (pos + 1)
    else wrapWait ctr lastCount fuel (pos + 1)

/-- The busy-wait `while ticks < u64(self.get_current() - self.lastCount) {}`
of `delay`'s in-range branch, with the source's comparison direction and the
wrapping `u32` subtraction. -/
def elseWait (ctr : Nat → Nat) (ticks lastCount : Nat) : Nat → Nat → Option Nat
  | 0, _ => none
  | fuel + 1, pos =>
    if ticks < wsub (ctr pos) lastCount then elseWait ctr ticks lastCount fuel (pos + 1)
    else some (pos + 1)

/-- The outer `while ticks != 0` loop of `MonoTimer::delay` (`time.rs`): with
`remaining = u32::max_value() - lastCount`, if `ticks > remaining` wait for a
wrap, re-record the count from a fresh read and subtract `remaining` from
`ticks`; otherwise run the in-range busy-wait, which changes neither `ticks`
nor `lastCount`.  `none` means the fuel bound was hit before the loop
returned. -/
def delayLoop (ctr : Nat → Nat) : Nat → Nat → Nat → Nat → Option Nat
  | 0, _, _, _ => none
  | fuel + 1, ticks, lastCount, pos =>
    if ticks = 0 then some pos
    else if U32MAX - lastCount < ticks then
      match wrapWait ctr lastCount (fuel + 1) pos with
      | none => none
      | some p => delayLoop ctr fuel (ticks - (U32MAX - lastCount)) (ctr p) (p + 1)
    else
      match elseWait ctr ticks lastCount (fuel + 1) pos with
      | none => none
      | some p => delayLoop ctr fuel ticks lastCount p

/-- Shallow embedding of `MonoTimer::delay` (`time.rs`): `ticks` is the
duration already converted by `frequency.ticks_in`, `ctr` the stream of
values successive counter reads return; `update_count()` records `ctr 0` and
the loop reads from index 1 on. -/
def delay (ctr : Nat → Nat) (fuel ticks : Nat) : Option Nat :=
  delayLoop ctr fuel ticks (ctr 0) 1

/-- Helper: in the in-range branch (`ticks ≤ u32::max_value() - lastCount`,
`ticks ≠ 0`) the loop body never decreases `ticks`, so `delayLoop` never
returns — for every counter stream and every amount of fuel. -/
theorem delayLoop_in_range_none (ctr : Nat → Nat) (ticks lastCount : Nat)
    (h0 : 0 < ticks) (hle : ticks ≤ U32MAX - lastCount) :
    ∀ (fuel pos : Nat), delayLoop ctr fuel ticks lastCount pos = none := by
  intro fuel
  induction fuel with
  | zero => intro pos; rfl
  | succ n ih =>
    intro pos
    have hne : ¬ ticks = 0 := Nat.pos_iff_ne_zero.mp h0
    have hnotlt : ¬ (U32MAX - lastCount < ticks) := not_lt.mpr hle
    simp only [delayLoop, if_neg hne, if_neg hnotlt]
    cases helse : elseWait ctr ticks lastCount (n + 1) pos with
    | none => rfl
    | some p => exact ih p

/-- Claim C2 (code bug): for a requested tick count that needs no wraparound
(`0 < ticks ≤ u32::max_value() - lastCount`), `delay` never returns at all,
for any counter stream and any fuel bound: the source's in-range busy-wait
compares in the wrong direction (`while ticks < current - lastCount` exits
immediately while too few ticks have elapsed) and never decreases `ticks`,
so the outer `while ticks != 0` loop can never exit — instead of returning
exactly once `current - lastCount ≥ ticks`. -/
theorem delay_in_range_never_returns (ctr : Nat → Nat) (fuel ticks : Nat)
    (h0 : 0 < ticks) (hle : ticks ≤ U32MAX - ctr 0) :
    delay ctr fuel ticks = none :=
  delayLoop_in_range_none ctr ticks (ctr 0) h0 hle fuel 1

/-- Concrete instance of `delay_in_range_never_returns`: 3 requested ticks,
counter pinned at 0, 1000 loop iterations of fuel — `delay` still has not
returned. -/
theorem delay_in_range_never_returns_witness :
    delay (fun _ => 0) 1000 3 = none :=
  delay_in_range_never_returns (fun _ => 0) 1000 3 (by decide) (by decide)

/-- Counter stream for the one-wrap scenario of the spec: the count recorded
at the start of `delay` is `0xFFFFFFF0`, one later pre-wrap reading is
`0xFFFFFFF8`, then the counter has wrapped and reads 3, 4, 5, ... -/
def ctr7 : Nat → Nat :=
  fun n => if n = 0 then 0xFFFFFFF0 else if n = 1 then 0xFFFFFFF8 else n + 1

/-- Helper: on the `ctr7` stream the wrap busy-wait sees one pre-wrap reading
and then the wrapped reading 3, so it exits at reading index 3 whenever at
least two iterations of fuel are available. -/
theorem wrapWait_ctr7 (m : Nat) :
    wrapWait ctr7 0xFFFFFFF0 (m + 1 + 1) 1 = some 3 := by
  rw [wrapWait, if_neg (by decide : ¬ ctr7 1 < 0xFFFFFFF0)]
  show wrapWait ctr7 0xFFFFFFF0 (m + 1) 2 = some 3
  rw [wrapWait, if_pos (by decide : ctr7 2 < 0xFFFFFFF0)]

/-- Claim C7 (code bug): with `lastCount = 0xFFFFFFF0` and 32 requested
ticks, `delay` does take the wrap branch as claimed — `remaining = 15`, it
waits for the observed wraparound, re-records the count (4) and continues
with `32 - 15 = 17` ticks — but it then never waits those 17 ticks and never
returns: the in-range busy-wait compares in the wrong direction and never
decreases `ticks`, so `delay` diverges instead of returning 17 ticks past
zero. -/
theorem delay_one_wrap_case :
    (∀ fuel : Nat, delay ctr7 (fuel + 2) 32 = delayLoop ctr7 (fuel + 1) 17 4 4)
    ∧ (∀ fuel : Nat, delay ctr7 fuel 32 = none) := by
  have hstep : ∀ fuel : Nat, delay ctr7 (fuel + 2) 32 = delayLoop ctr7 (fuel + 1) 17 4 4 := by
    intro fuel
    show delayLoop ctr7 (fuel + 1 + 1) 32 (ctr7 0) 1 = delayLoop ctr7 (fuel + 1) 17 4 4
    have hc0 : ctr7 0 = 0xFFFFFFF0 := rfl
    rw [delayLoop]
    rw [if_neg (by decide : ¬ (32 : Nat) = 0)]
    rw [if_pos (by decide : U32MAX - ctr7 0 < 32)]
    rw [hc0, wrapWait_ctr7 fuel]
    rfl
  refine ⟨hstep, ?_⟩
  intro fuel
  match fuel with
  | 0 => rfl
  | 1 => decide
  | n + 2 =>
    rw [hstep n]
    exact delayLoop_in_range_none ctr7 17 4 (by decide) (by decide) (n + 1) 4
